import Mathlib

/-!
Verification development for the ebpfEdgeNode telemetry agent.

Shallow embedding of the telemetry aggregation pipeline:
* `value_to_slot` — log2 histogram bucketing (src/ebpf-agent/telemetry.bpf.c, lines 68-78);
* `calculate_percentile` — percentile engine (src/ebpf-agent/agent.c, lines 37-62);
* `update_metrics` / rate computation (src/ebpf-agent/agent.c, lines 92-139);
* `get_cpu_utilization` (src/ebpf-agent/agent.c, lines 65-82);
* the BPF tracepoint callbacks as a step relation on the shared map state
  (src/ebpf-agent/telemetry.bpf.c, lines 87-272);
* the aggregator main loop (src/ebpf-agent/agent.c, lines 270-293).

Machine integers are modelled as `Nat` with explicit reductions `% 2^32` / `% 2^64`
where C unsigned arithmetic wraps; C `double` values are modelled as `ℚ` (every
double value the code actually produces is either integral or an exact quotient,
and the one `double` division that feeds an integer truncation — the percentile
target — cannot cross an integer boundary at double precision, so the rational
model is exact there).
-/

set_option maxRecDepth 20000

namespace EbpfEdgeNode

/-! ### Machine-integer helpers -/

/-- Wrap-around addition of two C `__u32` values. -/
def u32add (a b : Nat) : Nat := (a % 2 ^ 32 + b % 2 ^ 32) % 2 ^ 32

/-- Wrap-around addition of two C `__u64` values. -/
def u64add (a b : Nat) : Nat := (a % 2 ^ 64 + b % 2 ^ 64) % 2 ^ 64

/-- Wrap-around subtraction `a - b` of two C `__u64` values. -/
def u64sub (a b : Nat) : Nat := (a % 2 ^ 64 + (2 ^ 64 - b % 2 ^ 64)) % 2 ^ 64

/-- Reinterpret the low 32 bits of a value as a signed C `int`
(two's-complement). -/
def toInt32 (v : Nat) : Int :=
  if v % 2 ^ 32 < 2 ^ 31 then (v % 2 ^ 32 : Int) else (v % 2 ^ 32 : Int) - 2 ^ 32

/-- The C expression `1 << i` at type `int` (32-bit).  For `0 ≤ i ≤ 30` this is
`2^i`.  For `i ≥ 31` the C expression is undefined behaviour; we model the
behaviour of the common targets the repository builds for (x86-64 gcc/clang):
the shift count is taken mod 32 and the 32-bit result is reinterpreted as a
signed two's-complement `int`, so `i = 31` yields `-2^31` and `i = 32` yields
`1`. -/
def cShl1 (i : Nat) : Int := toInt32 (2 ^ (i % 32))

/-! ### Histogram bucketing — `value_to_slot` (telemetry.bpf.c, lines 68-78)

```c
static __always_inline int value_to_slot(__u64 value) {
    if (value == 0)
        return 0;
    int slot = 0;
    while (value > 1 && slot < MAX_SLOTS - 1) {
        value >>= 1;
        slot++;
    }
    return slot;
}
```
The loop runs at most 63 times (the `slot < 63` guard), so a fuel of 64 makes
the fuelled recursion exact. -/

def MAX_SLOTS : Nat := 64

/-- The `while (value > 1 && slot < MAX_SLOTS - 1)` loop of `value_to_slot`. -/
def vtsGo : Nat → Nat → Nat → Nat
  | 0, _, slot => slot
  | fuel + 1, v, slot =>
    if 1 < v ∧ slot < MAX_SLOTS - 1 then vtsGo fuel (v / 2) (slot + 1) else slot

/-- `value_to_slot` from telemetry.bpf.c: log2 bucket index of a `__u64` sample,
clamped to the last slot. -/
def value_to_slot (value : Nat) : Nat :=
  if value = 0 then 0 else vtsGo 64 value 0

/-! ### Percentile engine — `calculate_percentile` (agent.c, lines 37-62)

```c
static double calculate_percentile(struct hist *hist, double percentile) {
    __u32 total = 0; __u32 target_count; __u32 running_count = 0;
    for (int i = 0; i < MAX_SLOTS; i++) total += hist->slots[i];
    if (total == 0) return 0.0;
    target_count = (total * percentile) / 100.0;
    for (int i = 0; i < MAX_SLOTS; i++) {
        running_count += hist->slots[i];
        if (running_count >= target_count)
            return (double)(1 << i);   // comment in source: value (2^i)
    }
    return 0.0;
}
```
A histogram is the list of its 64 `__u32` slot counts; shorter lists denote
histograms whose remaining slots are zero. -/

/-- The fixed 64-entry slot array of a `struct hist`, from a list of counts. -/
def histSlots (l : List Nat) : List Nat := (l ++ List.replicate MAX_SLOTS 0).take MAX_SLOTS

/-- `total`: the `__u32` sum of all 64 slots. -/
def histTotal (l : List Nat) : Nat := (histSlots l).foldl u32add 0

/-- `target_count = (total * percentile) / 100.0` truncated to `__u32`, i.e.
`⌊total · p / 100⌋` clamped below at 0.  (The double computation cannot cross an
integer boundary for the percentile ranks used, so the rational floor is exact.)
Written on the numerator/denominator of `p` so that it evaluates in the kernel;
`targetCount_eq_floor` below identifies it with the rational floor. -/
def targetCount (total : Nat) (p : ℚ) : Nat :=
  if 0 ≤ p.num then total * p.num.toNat / (100 * p.den) else 0

/-- The second `for` loop of `calculate_percentile`: accumulate `running_count`
(`__u32`) and return `(double)(1 << i)` at the first slot reaching the target. -/
def percLoop : List Nat → Nat → Nat → Nat → Int
  | [], _, _, _ => 0
  | s :: rest, i, running, target =>
    let r := u32add running s
    if r ≥ target then cShl1 i else percLoop rest (i + 1) r target

/-- `calculate_percentile` from agent.c.  The returned C `double` is always
integral (either `0.0` or `(double)(1 << i)`), so the result type is `Int`. -/
def calculate_percentile (l : List Nat) (p : ℚ) : Int :=
  let total := histTotal l
  if total = 0 then 0
  else percLoop (histSlots l) 0 0 (targetCount total p)

/-- `targetCount` is the (clamped) floor of the exact rational `total · p / 100`,
i.e. the value the C truncation `(__u32)((total * percentile) / 100.0)` produces. -/
lemma targetCount_eq_floor (total : Nat) (p : ℚ) :
    targetCount total p = ⌊(total : ℚ) * p / 100⌋.toNat := by
  have hden : ((p.den : ℚ)) ≠ 0 := by
    exact_mod_cast p.den_nz
  have hden100 : ((100 * p.den : ℕ) : ℚ) ≠ 0 :=
    Nat.cast_ne_zero.mpr (Nat.mul_ne_zero (by norm_num) p.den_nz)
  have hpd : p * (p.den : ℚ) = (p.num : ℚ) := Rat.mul_den_eq_num p
  have hp : (total : ℚ) * p / 100 = ((total * p.num : ℤ) : ℚ) / ((100 * p.den : ℕ) : ℚ) := by
    rw [div_eq_div_iff (by norm_num) hden100]
    push_cast
    calc (total : ℚ) * p * (100 * (p.den : ℚ)) = (total : ℚ) * (p * (p.den : ℚ)) * 100 := by ring
      _ = (total : ℚ) * (p.num : ℚ) * 100 := by rw [hpd]
  rw [hp, Rat.floor_intCast_div_natCast]
  by_cases h : 0 ≤ p.num
  · rw [targetCount, if_pos h]
    have hnum : (total * p.num : ℤ) = ((total * p.num.toNat : ℕ) : ℤ) := by
      push_cast [Int.toNat_of_nonneg h]
      ring
    rw [hnum, ← Int.natCast_div, Int.toNat_natCast]
  · rw [targetCount, if_neg h]
    push_neg at h
    have hb : (0 : ℤ) < ((100 * p.den : ℕ) : ℤ) := by
      have := p.pos
      positivity
    have hnum : (total * p.num : ℤ) ≤ 0 :=
      mul_nonpos_of_nonneg_of_nonpos (by positivity) (le_of_lt h)
    have hdiv : (total * p.num : ℤ) / ((100 * p.den : ℕ) : ℤ) ≤ 0 := by
      calc (total * p.num : ℤ) / ((100 * p.den : ℕ) : ℤ)
          ≤ 0 / ((100 * p.den : ℕ) : ℤ) := Int.ediv_le_ediv hb hnum
        _ = 0 := Int.zero_ediv _
    omega

/-- Characterisation of the `value_to_slot` loop: starting from slot `slot`, it
returns `slot + ⌊log2 v⌋` clamped at 63, given enough fuel. -/
lemma vtsGo_eq (fuel : Nat) : ∀ v slot, 1 ≤ v → slot ≤ 63 → Nat.log 2 v ≤ fuel →
    vtsGo fuel v slot = min (slot + Nat.log 2 v) 63 := by
  induction fuel with
  | zero =>
    intro v slot hv hs hf
    have h0 : Nat.log 2 v = 0 := Nat.le_zero.mp hf
    rw [vtsGo, h0]
    omega
  | succ n ih =>
    intro v slot hv hs hf
    rw [vtsGo]
    simp only [MAX_SLOTS]
    by_cases h : 1 < v ∧ slot < 64 - 1
    · rw [if_pos h]
      have hv2 : 2 ≤ v := h.1
      have hlog : Nat.log 2 v = Nat.log 2 (v / 2) + 1 := by
        have hpos : 0 < Nat.log 2 v := Nat.log_pos one_lt_two hv2
        have hdb := Nat.log_div_base 2 v
        omega
      have hrec := ih (v / 2) (slot + 1)
        ((Nat.one_le_div_iff (by norm_num)).mpr hv2) (by omega) (by omega)
      rw [hrec]
      omega
    · rw [if_neg h]
      push_neg at h
      rcases Nat.lt_or_ge slot 63 with hs' | hs'
      · have hv1 : v = 1 := by
          rcases Nat.lt_or_ge v 2 with hv' | hv'
          · omega
          · exact absurd (by omega) (not_lt.mpr (h hv'))
        rw [hv1, Nat.log_one_right]
        omega
      · have hlog0 : 0 ≤ Nat.log 2 v := Nat.zero_le _
        omega

/-- `value_to_slot` computes `⌊log2 v⌋` clamped at the last bucket (and 0 at 0),
on the whole `__u64` domain. -/
lemma value_to_slot_eq (v : Nat) (hv : v < 2 ^ 64) :
    value_to_slot v = if v = 0 then 0 else min (Nat.log 2 v) 63 := by
  rw [value_to_slot]
  by_cases h : v = 0
  · simp [h]
  · rw [if_neg h, if_neg h]
    have h1 : 1 ≤ v := Nat.one_le_iff_ne_zero.mpr h
    have hlog : Nat.log 2 v ≤ 64 := by
      have hm : Nat.log 2 v ≤ Nat.log 2 (2 ^ 64) := Nat.log_mono_right (le_of_lt hv)
      rwa [Nat.log_pow one_lt_two] at hm
    have := vtsGo_eq 64 v 0 h1 (by omega) hlog
    simpa using this

/-! ### Userspace metrics state (agent.c)

`struct node_metrics` (telemetry.bpf.c lines 19-28), `struct prometheus_metrics`
(agent.c lines 17-26), and the `static` previous-snapshot variables of
`update_metrics` (agent.c lines 101-103), made explicit state. -/

structure NodeMetrics where
  rtt_sum : Nat
  rtt_count : Nat
  retrans_count : Nat
  drop_count : Nat
  runqlat_sum : Nat
  runqlat_count : Nat
  cpu_util : Nat
  timestamp : Nat
deriving DecidableEq

/-- A zero-initialised `struct node_metrics` (`= {}` in the C). -/
def NodeMetrics.zero : NodeMetrics := ⟨0, 0, 0, 0, 0, 0, 0, 0⟩

structure PromMetrics where
  rtt_p50_ms : ℚ
  rtt_p99_ms : ℚ
  tcp_retrans_rate : ℚ
  drop_rate : ℚ
  runqlat_p95_ms : ℚ
  cpu_utilization : ℚ
  last_update : Int
deriving DecidableEq

/-- The `static __u64 prev_retrans, prev_drops; static time_t prev_time;` state
of `update_metrics` (agent.c lines 101-103). -/
structure RatePrev where
  prev_retrans : Nat
  prev_drops : Nat
  prev_time : Int
deriving DecidableEq

/-! ### CPU utilization reader — `get_cpu_utilization` (agent.c, lines 65-82)

Reads the seven cumulative `/proc/stat` counters once; `none` models a failed
`fopen`/`fscanf`.  Note the C computes `(double)busy / total * 100.0`, which is
NaN when `total == 0`; the rational model returns 0 there (division by zero in
`ℚ`), so range statements below carry a `0 < total` hypothesis. -/

structure CpuStat where
  user : Nat
  nice : Nat
  system : Nat
  idle : Nat
  iowait : Nat
  irq : Nat
  softirq : Nat
deriving DecidableEq

/-- `total = user + nice + system + idle + iowait + irq + softirq` (`__u64`). -/
def cpuTotal (s : CpuStat) : Nat :=
  (s.user + s.nice + s.system + s.idle + s.iowait + s.irq + s.softirq) % 2 ^ 64

/-- `busy = total - idle - iowait` (`__u64`, left to right). -/
def cpuBusy (s : CpuStat) : Nat := u64sub (u64sub (cpuTotal s) s.idle) s.iowait

/-- `get_cpu_utilization` from agent.c: a single cumulative sample; 0 on a
failed read.  There is no stored previous sample in the source. -/
def get_cpu_utilization (stat : Option CpuStat) : ℚ :=
  match stat with
  | none => 0
  | some s => (cpuBusy s : ℚ) / (cpuTotal s : ℚ) * 100

/-! ### `update_metrics` (agent.c, lines 92-139) and the tick (main, lines 282-290)

`node_data` / `rtt_hist` are the results of the two `bpf_map_lookup_elem` calls
(`none` = lookup failed).  The function mirrors the source control flow exactly:
a failed node lookup skips the rate/runqlat updates, a failed histogram lookup
skips the percentile updates, and `cpu_utilization` / `last_update` are always
refreshed.  `main` then calls `export_prometheus_metrics(&metrics)`
unconditionally, so the tick's emitted record is exactly the struct after
`update_metrics`. -/

def update_metrics (node_data : Option NodeMetrics) (rtt_hist : Option (List Nat))
    (cpu : ℚ) (current_time : Int) (m : PromMetrics) (pr : RatePrev) :
    PromMetrics × RatePrev :=
  let step1 : PromMetrics × RatePrev :=
    match node_data with
    | none => (m, pr)
    | some nd =>
      let m1 :=
        if 0 < pr.prev_time then
          let time_diff : ℚ := ((current_time - pr.prev_time : Int) : ℚ)
          if 0 < time_diff then
            { m with
              tcp_retrans_rate := (u64sub nd.retrans_count pr.prev_retrans : ℚ) / time_diff,
              drop_rate := (u64sub nd.drop_count pr.prev_drops : ℚ) / time_diff }
          else m
        else m
      let m2 :=
        if 0 < nd.runqlat_count then
          { m1 with runqlat_p95_ms := (nd.runqlat_sum : ℚ) / (nd.runqlat_count : ℚ) }
        else m1
      (m2, { prev_retrans := nd.retrans_count, prev_drops := nd.drop_count,
             prev_time := current_time })
  let m3 :=
    match rtt_hist with
    | none => step1.1
    | some h =>
      { step1.1 with
        rtt_p50_ms := (calculate_percentile h 50 : ℚ),
        rtt_p99_ms := (calculate_percentile h 99 : ℚ) }
  ({ m3 with cpu_utilization := cpu, last_update := current_time }, step1.2)

/-- One aggregation tick of `main` (agent.c lines 285-290): run `update_metrics`,
then hand the updated struct to the exporter.  Second component = the record
given to `export_prometheus_metrics`. -/
def tick (node_data : Option NodeMetrics) (rtt_hist : Option (List Nat)) (cpu : ℚ)
    (now : Int) (m : PromMetrics) (pr : RatePrev) : (PromMetrics × RatePrev) × PromMetrics :=
  let r := update_metrics node_data rtt_hist cpu now m pr
  (r, r.1)

/-! ### BPF tracepoint callbacks as a step relation (telemetry.bpf.c, lines 87-272)

The three BPF hash maps become functions `Nat → Option _`.  The lazy
create-if-absent pattern (`lookup; if absent update with a zero record; lookup
again`) collapses to `getD .zero`.  Per-field `__sync_fetch_and_add` updates are
`u64add`/`u32add` on the fields.  `trace_sched_wakeup` and `trace_sched_switch`
reuse `node_metrics_map` keyed by *pid* — the key-domain collision the spec's
design notes flag. -/

def mapUpdate {α : Type} (m : Nat → Option α) (k : Nat) (v : α) : Nat → Option α :=
  fun q => if q = k then some v else m q

def mapDelete {α : Type} (m : Nat → Option α) (k : Nat) : Nat → Option α :=
  fun q => if q = k then none else m q

structure TeleState where
  node_metrics_map : Nat → Option NodeMetrics
  rtt_hist_map : Nat → Option (List Nat)
  drop_reason_map : Nat → Option Nat

/-- The empty initial map state. -/
def initState : TeleState := ⟨fun _ => none, fun _ => none, fun _ => none⟩

/-- `get_node_id` (telemetry.bpf.c lines 81-84): processor id mod 8. -/
def get_node_id (cpu : Nat) : Nat := cpu % 8

/-- `__sync_fetch_and_add(&hist->slots[slot], 1)` guarded by
`slot >= 0 && slot < MAX_SLOTS` (telemetry.bpf.c lines 113-115). -/
def histIncr (h : List Nat) (slot : Nat) : List Nat :=
  if slot < MAX_SLOTS then (histSlots h).set slot (u32add ((histSlots h).getD slot 0) 1)
  else histSlots h

/-- `trace_tcp_ack` (telemetry.bpf.c lines 87-145): convert `srtt_us` (1/8 µs
units, `__u32`) to ms, observe it in the node's histogram, add it to the rtt
accumulators. -/
def trace_tcp_ack (cpu srtt_us ts : Nat) (s : TeleState) : TeleState :=
  let rtt_ms := srtt_us % 2 ^ 32 / 8 / 1000
  let node_id := get_node_id cpu
  let hist := (s.rtt_hist_map node_id).getD (List.replicate MAX_SLOTS 0)
  let hist2 := histIncr hist (value_to_slot rtt_ms)
  let s1 := { s with rtt_hist_map := mapUpdate s.rtt_hist_map node_id hist2 }
  let nm := (s1.node_metrics_map node_id).getD NodeMetrics.zero
  let nm2 := { nm with rtt_sum := u64add nm.rtt_sum rtt_ms,
                       rtt_count := u64add nm.rtt_count 1, timestamp := ts % 2 ^ 64 }
  { s1 with node_metrics_map := mapUpdate s1.node_metrics_map node_id nm2 }

/-- `trace_tcp_retrans` (telemetry.bpf.c lines 148-176). -/
def trace_tcp_retrans (cpu ts : Nat) (s : TeleState) : TeleState :=
  let node_id := get_node_id cpu
  let nm := (s.node_metrics_map node_id).getD NodeMetrics.zero
  let nm2 := { nm with retrans_count := u64add nm.retrans_count 1, timestamp := ts % 2 ^ 64 }
  { s with node_metrics_map := mapUpdate s.node_metrics_map node_id nm2 }

/-- `trace_skb_drop` (telemetry.bpf.c lines 179-226). -/
def trace_skb_drop (cpu reason ts : Nat) (s : TeleState) : TeleState :=
  let node_id := get_node_id cpu
  let s1 := { s with drop_reason_map :=
      match s.drop_reason_map reason with
      | none => mapUpdate s.drop_reason_map reason 1
      | some c => mapUpdate s.drop_reason_map reason (u64add c 1) }
  let nm := (s1.node_metrics_map node_id).getD NodeMetrics.zero
  let nm2 := { nm with drop_count := u64add nm.drop_count 1, timestamp := ts % 2 ^ 64 }
  { s1 with node_metrics_map := mapUpdate s1.node_metrics_map node_id nm2 }

/-- `trace_sched_wakeup` (telemetry.bpf.c lines 229-238): stores the raw wakeup
timestamp into `node_metrics_map` keyed by **pid**, overwriting whatever record
is there.  The C passes `&ts` (8 bytes) as the value for a map whose value type
is `struct node_metrics`: the timestamp lands in the first field (`rtt_sum`) and
the remaining bytes are whatever follows on the producer's stack — `junk`
models those unspecified bytes. -/
def trace_sched_wakeup (pid ts : Nat) (junk : NodeMetrics) (s : TeleState) : TeleState :=
  { s with node_metrics_map :=
      mapUpdate s.node_metrics_map pid { junk with rtt_sum := ts % 2 ^ 64 } }

/-- `trace_sched_switch` (telemetry.bpf.c lines 240-272): reads the stashed
wakeup timestamp at key `next_pid` (the first 8 bytes of the record, i.e.
`rtt_sum`), accumulates the latency into the node record, then deletes the
`next_pid` entry. -/
def trace_sched_switch (cpu next_pid ts : Nat) (s : TeleState) : TeleState :=
  match s.node_metrics_map next_pid with
  | none => s
  | some stash =>
    let latency_ms := u64sub ts stash.rtt_sum / 1000000 % 2 ^ 32
    let node_id := get_node_id cpu
    let nm := (s.node_metrics_map node_id).getD NodeMetrics.zero
    let nm2 := { nm with runqlat_sum := u64add nm.runqlat_sum latency_ms,
                         runqlat_count := u64add nm.runqlat_count 1,
                         timestamp := ts % 2 ^ 64 }
    let s1 := { s with node_metrics_map := mapUpdate s.node_metrics_map node_id nm2 }
    { s1 with node_metrics_map := mapDelete s1.node_metrics_map next_pid }

/-- One instrumentation-callback invocation. -/
inductive TraceEvent where
  | tcpAck (cpu srtt_us ts : Nat)
  | tcpRetrans (cpu ts : Nat)
  | skbDrop (cpu reason ts : Nat)
  | schedWakeup (pid ts : Nat) (junk : NodeMetrics)
  | schedSwitch (cpu next_pid ts : Nat)

def stepEvent (e : TraceEvent) (s : TeleState) : TeleState :=
  match e with
  | .tcpAck cpu srtt_us ts => trace_tcp_ack cpu srtt_us ts s
  | .tcpRetrans cpu ts => trace_tcp_retrans cpu ts s
  | .skbDrop cpu reason ts => trace_skb_drop cpu reason ts s
  | .schedWakeup pid ts junk => trace_sched_wakeup pid ts junk s
  | .schedSwitch cpu next_pid ts => trace_sched_switch cpu next_pid ts s

/-- Run a sequence of instrumentation-callback invocations. -/
def runEvents (l : List TraceEvent) (s : TeleState) : TeleState :=
  l.foldl (fun s e => stepEvent e s) s

/-! ### Aggregator main loop (agent.c, lines 270-293)

```c
while (!exiting) {
    err = ring_buffer__poll(rb, 100);
    if (err == -EINTR) { err = 0; break; }
    if (err < 0) { ...; break; }
    if (now - last_metrics_update >= 5) {
        update_metrics(&metrics, 0);
        export_prometheus_metrics(&metrics);
        last_metrics_update = now;
    }
    sleep(1);
}
```
The shutdown signal handler (lines 32-34) only sets the `volatile bool exiting`
flag.  Logical time: one loop iteration = one poll cycle.  `SigPoint` says
where (if at all) the signal is delivered during an iteration: while blocked in
`ring_buffer__poll` (the poll returns `-EINTR` and the loop breaks at once,
before the tick), or anywhere else in the iteration (the flag is set, the
iteration — including an in-flight tick — runs to completion, and the flag is
observed at the top of the next iteration). -/

inductive SigPoint where
  | quiet
  | duringPoll
  | afterPoll
deriving DecidableEq

/-- The environment one loop iteration sees: signal delivery point, a
non-EINTR poll failure, the wall clock, the two map-lookup results and the CPU
reading of a potential tick. -/
structure IterEnv where
  sig : SigPoint
  pollErr : Bool
  now : Int
  node_data : Option NodeMetrics
  rtt_hist : Option (List Nat)
  cpu : ℚ

/-- The loop-carried state of `main`: the `exiting` flag, the metrics struct,
the static rate baseline, `last_metrics_update`, and the sequence of whole
records handed to the exporter so far. -/
structure LoopState where
  exiting : Bool
  metrics : PromMetrics
  pr : RatePrev
  last_metrics_update : Int
  output : List PromMetrics

/-- One iteration of the main loop.  Returns the next state and whether the
loop `break`s out of the `while` during this iteration. -/
def loopIter (env : IterEnv) (s : LoopState) : LoopState × Bool :=
  if env.sig = SigPoint.duringPoll then
    ({ s with exiting := true }, true)
  else
    let s1 := if env.sig = SigPoint.afterPoll then { s with exiting := true } else s
    if env.pollErr then (s1, true)
    else if 5 ≤ env.now - s1.last_metrics_update then
      let r := tick env.node_data env.rtt_hist env.cpu env.now s1.metrics s1.pr
      ({ s1 with metrics := r.1.1, pr := r.1.2, last_metrics_update := env.now,
                 output := s1.output ++ [r.2] }, false)
    else (s1, false)

/-- `while (!exiting)` over a finite schedule of iteration environments.
Returns the final state and the number of iterations whose body executed. -/
def agentLoop : List IterEnv → LoopState → LoopState × Nat
  | [], s => (s, 0)
  | e :: rest, s =>
    if s.exiting then (s, 0)
    else
      let r := loopIter e s
      if r.2 then (r.1, 1)
      else
        let rr := agentLoop rest r.1
        (rr.1, rr.2 + 1)

/-- Default iteration environment (used only as the `List.getD` fallback). -/
def dfltEnv : IterEnv :=
  { sig := SigPoint.quiet, pollErr := false, now := 0,
    node_data := none, rtt_hist := none, cpu := 0 }

/-- All-zero `struct prometheus_metrics` (`= {0}` in `main`). -/
def PromMetrics.zero : PromMetrics := ⟨0, 0, 0, 0, 0, 0, 0⟩

/-! ## Claims -/

/-- Claim C10: a sample of value 0 is well-defined and assigned to bucket 0:
`value_to_slot 0 = 0` (the function is total, no failure or underflow), and an
observation of a 0-valued RTT sample through `trace_tcp_ack` increments bucket 0
of the node's histogram. -/
theorem value_zero_bucket_zero :
    value_to_slot 0 = 0 ∧
    ((runEvents [TraceEvent.tcpAck 0 0 5] initState).rtt_hist_map 0).map
      (fun h => h.getD 0 0) = some 1 := by
  constructor
  · decide
  · decide

/-- Claim C1 (code bug): the percentile walk does reach the bucket whose running
count attains the target, but the returned value is the C `int` expression
`(double)(1 << i)`, not `2^i`: at bucket index 31 it yields the signed-overflow
value −2147483648 = −2^31 instead of 2^31, contradicting the spec and the
source's own comment.  Evaluated at a histogram whose single count lies in
bucket 31, at rank p = 100. -/
theorem percentile_bucket31_wraps :
    calculate_percentile (List.replicate 31 0 ++ [1]) 100 = -2147483648 ∧
    (-2147483648 : Int) ≠ 2 ^ 31 ∧
    calculate_percentile [] 100 = 0 := by
  refine ⟨by decide, by decide, by decide⟩

/-- Claim C7 (code bug): percentile monotonicity in the rank `p` fails on the
code, through the same `1 << i` overflow: on the histogram with one count in
bucket 30 and one in bucket 31, rank 50 gives 2^30 but rank 100 gives −2^31,
so `percentile(h, 50) > percentile(h, 100)`. -/
theorem percentile_monotonicity_broken :
    calculate_percentile (List.replicate 30 0 ++ [1, 1]) 50 = 2 ^ 30 ∧
    calculate_percentile (List.replicate 30 0 ++ [1, 1]) 100 = -(2 ^ 31) ∧
    ¬ calculate_percentile (List.replicate 30 0 ++ [1, 1]) 50 ≤
        calculate_percentile (List.replicate 30 0 ++ [1, 1]) 100 := by
  refine ⟨by decide, by decide, by decide⟩

/-- Claim C2, counterexample: the claim asserts `2^k + 1` is assigned to bucket
`k + 1` for every `k` below the clamp boundary; at `k = 1` the code assigns
`2^1 + 1 = 3` to bucket 1, not bucket 2. -/
theorem value_to_slot_pow_succ_cex : value_to_slot (2 ^ 1 + 1) ≠ 1 + 1 := by decide

/-- Claim C2 (amended): the bucket index is `⌊log2 value⌋` clamped to 63 (and 0
for value 0) on the whole `__u64` domain; `2^k` falls in bucket `k`; but
`2^k + 1` also falls in bucket `k` for `1 ≤ k ≤ 62` — only for `k = 0` does
`2^k + 1` fall in bucket `k + 1`. -/
theorem value_to_slot_log2_corrected :
    (∀ v : Nat, v < 2 ^ 64 →
      value_to_slot v = if v = 0 then 0 else min (Nat.log 2 v) 63)
    ∧ (∀ k : Nat, k ≤ 63 → value_to_slot (2 ^ k) = k)
    ∧ (∀ k : Nat, 1 ≤ k → k ≤ 62 → value_to_slot (2 ^ k + 1) = k)
    ∧ value_to_slot (2 ^ 0 + 1) = 1 := by
  refine ⟨value_to_slot_eq, ?_, ?_, by decide⟩
  · intro k hk
    have hlt : 2 ^ k < 2 ^ 64 := Nat.pow_lt_pow_right one_lt_two (by omega)
    rw [value_to_slot_eq (2 ^ k) hlt,
      if_neg (Nat.pos_iff_ne_zero.mp (by positivity)), Nat.log_pow one_lt_two]
    omega
  · intro k hk1 hk62
    have hle : (2 : Nat) ^ k ≤ 2 ^ 62 := Nat.pow_le_pow_right (by norm_num) hk62
    have hbig : (2 : Nat) ^ 62 + 1 < 2 ^ 64 := by norm_num
    have h2k : 1 < 2 ^ k := Nat.one_lt_two_pow_iff.mpr (by omega)
    have hlog : Nat.log 2 (2 ^ k + 1) = k := by
      refine Nat.log_eq_of_pow_le_of_lt_pow (by omega) ?_
      rw [pow_succ]
      omega
    rw [value_to_slot_eq (2 ^ k + 1) (by omega), if_neg (by omega), hlog]
    omega

/-- Claim C2, witness for the amended theorem at concrete inputs. -/
theorem value_to_slot_log2_witness :
    value_to_slot 6 = 2 ∧ value_to_slot (2 ^ 5) = 5 ∧ value_to_slot (2 ^ 5 + 1) = 5 := by
  have h1 := value_to_slot_log2_corrected.1 6 (by norm_num)
  have h2 := value_to_slot_log2_corrected.2.1 5 (by norm_num)
  have h3 := value_to_slot_log2_corrected.2.2.1 5 (by norm_num) (by norm_num)
  refine ⟨?_, h2, h3⟩
  rw [h1, if_neg (by norm_num),
    Nat.log_eq_of_pow_le_of_lt_pow (by norm_num : 2 ^ 2 ≤ 6) (by norm_num)]
  decide

/-- Claim C3 (code bug): node counters are not monotonically non-decreasing and
updates are lost.  After a `tcp_retransmit` callback on CPU 3 (node 3) the
node-3 record has `retrans_count = 1`; a following `sched_wakeup` for pid 3
overwrites the same `node_metrics_map` entry (key domains collide) with a raw
timestamp record, after which `retrans_count` is 0 — a decrease, and the
increment is lost.  (`trace_sched_switch` additionally deletes such entries.) -/
theorem wakeup_clobbers_node_counters :
    (((runEvents [TraceEvent.tcpRetrans 3 10] initState).node_metrics_map 3).map
        (fun r => r.retrans_count) = some 1) ∧
    (((runEvents [TraceEvent.tcpRetrans 3 10,
        TraceEvent.schedWakeup 3 20 NodeMetrics.zero] initState).node_metrics_map 3).map
        (fun r => r.retrans_count) = some 0) := by
  constructor
  · decide
  · decide

/-- On in-range `__u64` values with no underflow, `u64sub` is plain subtraction. -/
lemma u64sub_of_le {a b : Nat} (hba : b ≤ a) (ha : a < 2 ^ 64) : u64sub a b = a - b := by
  unfold u64sub
  omega

/-- On in-range `__u64` values, an underflowing subtraction wraps around. -/
lemma u64sub_of_lt {a b : Nat} (hab : a < b) (hb : b < 2 ^ 64) :
    u64sub a b = 2 ^ 64 - (b - a) := by
  unfold u64sub
  omega

/-- The `tcp_retrans_rate` / `drop_rate` fields produced by one `update_metrics`
call with a successful node lookup, written out once for the rate theorems. -/
lemma update_metrics_rates (nd : NodeMetrics) (hist : Option (List Nat)) (cpu : ℚ)
    (now : Int) (m : PromMetrics) (pr : RatePrev) :
    (update_metrics (some nd) hist cpu now m pr).1.tcp_retrans_rate =
      (if 0 < pr.prev_time ∧ 0 < ((now - pr.prev_time : Int) : ℚ) then
        (u64sub nd.retrans_count pr.prev_retrans : ℚ) / ((now - pr.prev_time : Int) : ℚ)
      else m.tcp_retrans_rate) ∧
    (update_metrics (some nd) hist cpu now m pr).1.drop_rate =
      (if 0 < pr.prev_time ∧ 0 < ((now - pr.prev_time : Int) : ℚ) then
        (u64sub nd.drop_count pr.prev_drops : ℚ) / ((now - pr.prev_time : Int) : ℚ)
      else m.drop_rate) := by
  rcases hist with _ | h <;>
    simp only [update_metrics] <;>
    split_ifs <;>
    simp_all <;>
    (exfalso; omega)

/-- Claim C4, counterexample: with current count 0, previous count 1 and one
elapsed second, the code computes the wrapped `__u64` difference, giving rate
(2^64 − 1)/1, not the claim's mathematical `(current − previous)/elapsed`
= −1. -/
theorem rate_engine_wrap_cex :
    (update_metrics (some NodeMetrics.zero) none 0 2 PromMetrics.zero
        ⟨1, 0, 1⟩).1.tcp_retrans_rate = ((2 ^ 64 - 1 : Nat) : ℚ) ∧
    ((2 ^ 64 - 1 : Nat) : ℚ) ≠ -1 := by
  constructor
  · norm_num [update_metrics, u64sub, NodeMetrics.zero, PromMetrics.zero]
  · norm_num

/-- Claim C4 (amended): when elapsed > 0 the computed rate is the wrapped
`__u64` difference over elapsed — equal to `(current − previous)/elapsed`
whenever the counter did not decrease; when elapsed ≤ 0, or when there is no
previous sample yet, the previously computed rates are left unchanged; and an
unchanged counter yields rate 0. -/
theorem rate_engine_corrected (nd : NodeMetrics) (hist : Option (List Nat)) (cpu : ℚ)
    (now : Int) (m : PromMetrics) (pr : RatePrev) :
    (0 < pr.prev_time → 0 < now - pr.prev_time →
      pr.prev_retrans ≤ nd.retrans_count → nd.retrans_count < 2 ^ 64 →
      (update_metrics (some nd) hist cpu now m pr).1.tcp_retrans_rate =
        ((nd.retrans_count - pr.prev_retrans : Nat) : ℚ) / ((now - pr.prev_time : Int) : ℚ))
    ∧ (now - pr.prev_time ≤ 0 →
      (update_metrics (some nd) hist cpu now m pr).1.tcp_retrans_rate = m.tcp_retrans_rate ∧
      (update_metrics (some nd) hist cpu now m pr).1.drop_rate = m.drop_rate)
    ∧ (pr.prev_time ≤ 0 →
      (update_metrics (some nd) hist cpu now m pr).1.tcp_retrans_rate = m.tcp_retrans_rate ∧
      (update_metrics (some nd) hist cpu now m pr).1.drop_rate = m.drop_rate)
    ∧ (0 < pr.prev_time → 0 < now - pr.prev_time →
      nd.retrans_count = pr.prev_retrans → nd.retrans_count < 2 ^ 64 →
      (update_metrics (some nd) hist cpu now m pr).1.tcp_retrans_rate = 0) := by
  obtain ⟨hr, hd⟩ := update_metrics_rates nd hist cpu now m pr
  refine ⟨?_, ?_, ?_, ?_⟩
  · intro h1 h2 h3 h4
    rw [hr, if_pos ⟨h1, by exact_mod_cast h2⟩, u64sub_of_le h3 h4]
  · intro h2
    have hq : ¬ (0 : ℚ) < ((now - pr.prev_time : Int) : ℚ) := by
      rw [not_lt]
      exact_mod_cast h2
    exact ⟨by rw [hr, if_neg (fun hc => hq hc.2)], by rw [hd, if_neg (fun hc => hq hc.2)]⟩
  · intro h1
    exact ⟨by rw [hr, if_neg (fun hc => absurd hc.1 (not_lt.mpr h1))],
      by rw [hd, if_neg (fun hc => absurd hc.1 (not_lt.mpr h1))]⟩
  · intro h1 h2 h3 h4
    rw [hr, if_pos ⟨h1, by exact_mod_cast h2⟩, u64sub_of_le h3.ge h4, h3, Nat.sub_self]
    simp

/-- Claim C4, witness: the three amended behaviours at concrete inputs
(retransmissions 10 → 60 over 5 s gives rate 10; elapsed 0 leaves the rate
unchanged; an unchanged counter gives rate 0). -/
theorem rate_engine_witness :
    (update_metrics (some { NodeMetrics.zero with retrans_count := 60 })
        none 0 6 PromMetrics.zero ⟨10, 0, 1⟩).1.tcp_retrans_rate = 10 ∧
    (update_metrics (some NodeMetrics.zero) none 0 1 PromMetrics.zero
        ⟨0, 0, 1⟩).1.tcp_retrans_rate = PromMetrics.zero.tcp_retrans_rate ∧
    (update_metrics (some { NodeMetrics.zero with retrans_count := 7 })
        none 0 9 PromMetrics.zero ⟨7, 0, 4⟩).1.tcp_retrans_rate = 0 := by
  refine ⟨?_, ?_, ?_⟩
  · have h := (rate_engine_corrected { NodeMetrics.zero with retrans_count := 60 }
      none 0 6 PromMetrics.zero ⟨10, 0, 1⟩).1 (by decide) (by decide) (by decide) (by decide)
    rw [h]
    norm_num
  · exact ((rate_engine_corrected NodeMetrics.zero none 0 1 PromMetrics.zero
      ⟨0, 0, 1⟩).2.1 (by decide)).1
  · exact (rate_engine_corrected { NodeMetrics.zero with retrans_count := 7 }
      none 0 9 PromMetrics.zero ⟨7, 0, 4⟩).2.2.2 (by decide) (by decide) (by decide) (by decide)

/-- Claim C5, counterexample: a counter decrease (current 3, previous 5, elapsed
2 s) yields the wrapped-around value (2^64 − 2)/2 = 2^63 − 1 — a huge positive
rate, not the negative rate the claim asserts. -/
theorem rate_decrease_not_negative_cex :
    (update_metrics (some { NodeMetrics.zero with retrans_count := 3 }) none 0 3
        PromMetrics.zero ⟨5, 0, 1⟩).1.tcp_retrans_rate = ((2 ^ 63 - 1 : Nat) : ℚ) ∧
    ¬ (update_metrics (some { NodeMetrics.zero with retrans_count := 3 }) none 0 3
        PromMetrics.zero ⟨5, 0, 1⟩).1.tcp_retrans_rate < 0 := by
  have h : (update_metrics (some { NodeMetrics.zero with retrans_count := 3 }) none 0 3
      PromMetrics.zero ⟨5, 0, 1⟩).1.tcp_retrans_rate = ((2 ^ 63 - 1 : Nat) : ℚ) := by
    norm_num [update_metrics, u64sub, NodeMetrics.zero, PromMetrics.zero]
  refine ⟨h, ?_⟩
  rw [h]
  norm_num

/-- Claim C5 (amended): a counter decrease with elapsed > 0 yields the wrapped
`__u64` value `(2^64 − (previous − current))/elapsed`, which is strictly
positive — not a negative rate. -/
theorem rate_decrease_wraps_positive (nd : NodeMetrics) (hist : Option (List Nat)) (cpu : ℚ)
    (now : Int) (m : PromMetrics) (pr : RatePrev)
    (h1 : 0 < pr.prev_time) (h2 : 0 < now - pr.prev_time)
    (h3 : nd.retrans_count < pr.prev_retrans) (h4 : pr.prev_retrans < 2 ^ 64) :
    (update_metrics (some nd) hist cpu now m pr).1.tcp_retrans_rate =
      ((2 ^ 64 - (pr.prev_retrans - nd.retrans_count) : Nat) : ℚ) /
        ((now - pr.prev_time : Int) : ℚ) ∧
    0 < (update_metrics (some nd) hist cpu now m pr).1.tcp_retrans_rate := by
  obtain ⟨hr, _⟩ := update_metrics_rates nd hist cpu now m pr
  have hq : (0 : ℚ) < ((now - pr.prev_time : Int) : ℚ) := by exact_mod_cast h2
  have heq : (update_metrics (some nd) hist cpu now m pr).1.tcp_retrans_rate =
      ((2 ^ 64 - (pr.prev_retrans - nd.retrans_count) : Nat) : ℚ) /
        ((now - pr.prev_time : Int) : ℚ) := by
    rw [hr, if_pos ⟨h1, hq⟩, u64sub_of_lt h3 h4]
  refine ⟨heq, ?_⟩
  rw [heq]
  apply div_pos _ hq
  have hn : 0 < 2 ^ 64 - (pr.prev_retrans - nd.retrans_count) := by omega
  exact_mod_cast hn

/-- Claim C5, witness at a concrete decrease (6 → 2 over 2 s). -/
theorem rate_decrease_witness :
    (update_metrics (some { NodeMetrics.zero with retrans_count := 2 }) none 0 4
        PromMetrics.zero ⟨6, 0, 2⟩).1.tcp_retrans_rate = ((2 ^ 64 - 4 : Nat) : ℚ) / 2 ∧
    0 < (update_metrics (some { NodeMetrics.zero with retrans_count := 2 }) none 0 4
        PromMetrics.zero ⟨6, 0, 2⟩).1.tcp_retrans_rate := by
  have h := rate_decrease_wraps_positive { NodeMetrics.zero with retrans_count := 2 } none 0 4
    PromMetrics.zero ⟨6, 0, 2⟩ (by decide) (by decide) (by decide) (by decide)
  refine ⟨?_, h.2⟩
  rw [h.1]
  norm_num

/-- Claim C6, counterexample: during a tick where both table lookups fail, the
exporter is still handed a complete record for the node — the previous tick's
(stale) gauge values, with only `cpu_utilization` and `last_update` refreshed —
so the node's emission is not skipped for that tick. -/
theorem missing_snapshot_cex :
    (tick none none 0 100 ⟨1, 2, 7, 4, 3, 9, 11⟩ ⟨0, 0, 0⟩).2 =
      { rtt_p50_ms := 1, rtt_p99_ms := 2, tcp_retrans_rate := 7, drop_rate := 4,
        runqlat_p95_ms := 3, cpu_utilization := 0, last_update := 100 } ∧
    (tick none none 0 100 ⟨1, 2, 7, 4, 3, 9, 11⟩ ⟨0, 0, 0⟩).2.tcp_retrans_rate = 7 := by
  constructor
  · rfl
  · rfl

/-- Claim C6 (amended): when the node's table entries cannot be read during a
tick, the rate/latency/percentile fields are not updated (and the rate baseline
is unchanged), but the tick still hands the exporter a whole record carrying
the previous (stale) gauge values, with only `cpu_utilization` and
`last_update` refreshed. -/
theorem missing_snapshot_stale_emission (cpu : ℚ) (now : Int) (m : PromMetrics)
    (pr : RatePrev) :
    (tick none none cpu now m pr).2 =
      { m with cpu_utilization := cpu, last_update := now } ∧
    (tick none none cpu now m pr).1.2 = pr := by
  constructor
  · rfl
  · rfl

/-- Claim C8, counterexample: the reader takes a single cumulative sample and
keeps no prior-sample state — a (first) call seeing 1 busy and 1 idle jiffy
returns 50, not the 0 the claim's two-point, first-call contract requires. -/
theorem cpu_first_call_cex :
    get_cpu_utilization (some ⟨1, 0, 0, 1, 0, 0, 0⟩) = 50 ∧ (50 : ℚ) ≠ 0 := by
  constructor
  · norm_num [get_cpu_utilization, cpuBusy, cpuTotal, u64sub]
  · norm_num

/-- Claim C8 (amended): the value is `busy/total · 100` from one cumulative
read of the since-boot counters (no two-point sampling, no prior-sample state);
it lies in [0, 100] whenever the counters do not overflow and their sum is
positive; and a failed read degrades gracefully to 0. -/
theorem cpu_utilization_corrected (s : CpuStat)
    (hsum : s.user + s.nice + s.system + s.idle + s.iowait + s.irq + s.softirq < 2 ^ 64)
    (hpos : 0 < cpuTotal s) :
    0 ≤ get_cpu_utilization (some s) ∧ get_cpu_utilization (some s) ≤ 100 ∧
    get_cpu_utilization none = 0 := by
  have htot : cpuTotal s =
      s.user + s.nice + s.system + s.idle + s.iowait + s.irq + s.softirq := by
    unfold cpuTotal
    omega
  have hbusy : cpuBusy s = cpuTotal s - s.idle - s.iowait := by
    have hin : u64sub (cpuTotal s) s.idle = cpuTotal s - s.idle :=
      u64sub_of_le (by omega) (by omega)
    unfold cpuBusy
    rw [hin, u64sub_of_le (by omega) (by omega)]
  have hb_le : cpuBusy s ≤ cpuTotal s := by omega
  refine ⟨?_, ?_, rfl⟩
  · show 0 ≤ (cpuBusy s : ℚ) / (cpuTotal s : ℚ) * 100
    positivity
  · show (cpuBusy s : ℚ) / (cpuTotal s : ℚ) * 100 ≤ 100
    have h1 : (cpuBusy s : ℚ) / (cpuTotal s : ℚ) ≤ 1 := by
      rw [div_le_one (by exact_mod_cast hpos)]
      exact_mod_cast hb_le
    calc (cpuBusy s : ℚ) / (cpuTotal s : ℚ) * 100
        ≤ 1 * 100 := by
          exact mul_le_mul_of_nonneg_right h1 (by norm_num)
      _ = 100 := by norm_num

/-- Claim C8, witness: a concrete sample (3 user, 4 idle, 1 iowait) plus the
failed-read case. -/
theorem cpu_utilization_witness :
    0 ≤ get_cpu_utilization (some ⟨3, 0, 0, 4, 1, 0, 0⟩) ∧
    get_cpu_utilization (some ⟨3, 0, 0, 4, 1, 0, 0⟩) ≤ 100 ∧
    get_cpu_utilization none = 0 :=
  cpu_utilization_corrected ⟨3, 0, 0, 4, 1, 0, 0⟩ (by decide) (by decide)

/-- A state already marked `exiting` executes no further loop iterations. -/
lemma agentLoop_exiting (envs : List IterEnv) (s : LoopState) (h : s.exiting = true) :
    agentLoop envs s = (s, 0) := by
  cases envs with
  | nil => rfl
  | cons e rest => simp [agentLoop, h]

/-- Each loop iteration either leaves the exporter output unchanged or appends
exactly one whole record (one complete six-gauge snapshot). -/
lemma loopIter_output (env : IterEnv) (s : LoopState) :
    (loopIter env s).1.output = s.output ∨
    ∃ r, (loopIter env s).1.output = s.output ++ [r] := by
  unfold loopIter
  split_ifs <;> simp <;> split_ifs <;> simp

/-- If the shutdown signal is delivered during an iteration and the loop does
not already `break` out of it, the iteration leaves the `exiting` flag set. -/
lemma loopIter_signal_exiting (env : IterEnv) (s : LoopState)
    (h : env.sig ≠ SigPoint.quiet) :
    (loopIter env s).1.exiting = true := by
  have hc : env.sig = SigPoint.duringPoll ∨ env.sig = SigPoint.afterPoll := by
    cases henv : env.sig
    · exact absurd henv h
    · exact Or.inl rfl
    · exact Or.inr rfl
  unfold loopIter
  rcases hc with h1 | h1 <;> rw [h1] <;> split_ifs <;> simp_all
  split_ifs <;> simp_all

/-- The exporter output only ever grows by whole records, at most one per
executed iteration. -/
lemma agentLoop_output (envs : List IterEnv) : ∀ s : LoopState,
    ∃ recs : List PromMetrics, (agentLoop envs s).1.output = s.output ++ recs ∧
      recs.length ≤ (agentLoop envs s).2 := by
  induction envs with
  | nil =>
    intro s
    exact ⟨[], by simp [agentLoop]⟩
  | cons e rest ih =>
    intro s
    by_cases hex : s.exiting = true
    · exact ⟨[], by simp [agentLoop_exiting _ _ hex]⟩
    · have hex' : s.exiting = false := by
        revert hex
        cases s.exiting <;> simp
      by_cases hbrk : (loopIter e s).2 = true
      · rcases loopIter_output e s with ho | ⟨r, ho⟩
        · exact ⟨[], by simp [agentLoop, hex', hbrk, ho]⟩
        · exact ⟨[r], by simp [agentLoop, hex', hbrk, ho]⟩
      · have hbrk' : (loopIter e s).2 = false := by
          revert hbrk
          cases (loopIter e s).2 <;> simp
        obtain ⟨recs, hrec, hlen⟩ := ih (loopIter e s).1
        rcases loopIter_output e s with ho | ⟨r, ho⟩
        · refine ⟨recs, ?_, ?_⟩
          · simp [agentLoop, hex', hbrk', hrec, ho]
          · simp [agentLoop, hex', hbrk']
            omega
        · refine ⟨r :: recs, ?_, ?_⟩
          · simp [agentLoop, hex', hbrk', hrec, ho]
          · simp [agentLoop, hex', hbrk']
            omega

/-- Once the shutdown signal is raised during iteration `k` (and not before),
the loop executes at most `k + 1` iterations in total: the iteration in which
the signal arrives completes (or breaks out early on `-EINTR`), and the flag is
observed at the top of the next cycle. -/
lemma agentLoop_iters (envs : List IterEnv) : ∀ (s : LoopState) (k : Nat),
    (∀ i, i < k → (envs.getD i dfltEnv).sig = SigPoint.quiet) →
    (envs.getD k dfltEnv).sig ≠ SigPoint.quiet →
    k < envs.length →
    (agentLoop envs s).2 ≤ k + 1 := by
  induction envs with
  | nil =>
    intro s k _ _ hk
    simp at hk
  | cons e rest ih =>
    intro s k hq hs hk
    by_cases hex : s.exiting = true
    · rw [agentLoop_exiting _ _ hex]
      omega
    · have hex' : s.exiting = false := by
        revert hex
        cases s.exiting <;> simp
      cases k with
      | zero =>
        have he : e.sig ≠ SigPoint.quiet := by simpa using hs
        by_cases hbrk : (loopIter e s).2 = true
        · simp [agentLoop, hex', hbrk]
        · have hbrk' : (loopIter e s).2 = false := by
            revert hbrk
            cases (loopIter e s).2 <;> simp
          have hexit : (loopIter e s).1.exiting = true := loopIter_signal_exiting e s he
          simp [agentLoop, hex', hbrk', agentLoop_exiting rest _ hexit]
      | succ j =>
        by_cases hbrk : (loopIter e s).2 = true
        · simp [agentLoop, hex', hbrk]
        · have hbrk' : (loopIter e s).2 = false := by
            revert hbrk
            cases (loopIter e s).2 <;> simp
          have hrec := ih (loopIter e s).1 j
            (fun i hi => by simpa using hq (i + 1) (by omega))
            (by simpa using hs)
            (by simp at hk; omega)
          simp [agentLoop, hex', hbrk']
          omega

/-- Claim C9: whenever the shutdown signal is raised (during iteration `k` of
the schedule, having been quiet before), the loop observes it and terminates
within one poll cycle — at most one further iteration executes, any in-flight
tick completing as part of it — and everything handed to the exporter is a
sequence of whole records, at most one per executed iteration (a tick's
snapshot is emitted atomically as one complete record, or not at all). -/
theorem shutdown_within_one_cycle (envs : List IterEnv) (s : LoopState) (k : Nat)
    (hq : ∀ i, i < k → (envs.getD i dfltEnv).sig = SigPoint.quiet)
    (hs : (envs.getD k dfltEnv).sig ≠ SigPoint.quiet)
    (hk : k < envs.length) :
    (agentLoop envs s).2 ≤ k + 1 ∧
    ∃ recs : List PromMetrics, (agentLoop envs s).1.output = s.output ++ recs ∧
      recs.length ≤ (agentLoop envs s).2 :=
  ⟨agentLoop_iters envs s k hq hs hk, agentLoop_output envs s⟩

/-- A quiet first iteration followed by one in which the signal arrives after
the poll, with a due tick. -/
def sigEnv : IterEnv :=
  { sig := SigPoint.afterPoll, pollErr := false, now := 10,
    node_data := none, rtt_hist := none, cpu := 0 }

/-- The loop state at startup of `main`. -/
def initLoop : LoopState :=
  { exiting := false, metrics := PromMetrics.zero, pr := ⟨0, 0, 0⟩,
    last_metrics_update := 0, output := [] }

/-- Claim C9, witness: on the two-iteration schedule with the signal raised in
iteration 1, the loop runs at most 2 iterations and the output is an extension
by whole records. -/
theorem shutdown_witness :
    (agentLoop [dfltEnv, sigEnv] initLoop).2 ≤ 2 ∧
    ∃ recs : List PromMetrics,
      (agentLoop [dfltEnv, sigEnv] initLoop).1.output = initLoop.output ++ recs ∧
      recs.length ≤ (agentLoop [dfltEnv, sigEnv] initLoop).2 := by
  refine shutdown_within_one_cycle [dfltEnv, sigEnv] initLoop 1 ?_ ?_ ?_
  · intro i hi
    have hi0 : i = 0 := by omega
    subst hi0
    rfl
  · simp [sigEnv]
  · decide

end EbpfEdgeNode
